import Mathlib

/-!
Verification of the auto-loan amortization core of the calculator
(`src/components/Calculator.vue`).  The numeric functions are embedded
over `ℚ` (exact arithmetic as the idealisation of the source's
double-precision floats); the loan term is an integer so that the
zero/negative-term behaviour is statable.  Division by zero in `ℚ`
returns 0, standing in for the source's `Infinity`/`NaN` results where
the source divides by zero.
-/

/-- The form inputs feeding the calculation core, one field per `ref` of
the component that the financial formulas read. -/
structure LoanInputs where
  autoPrice : ℚ
  downPayment : ℚ
  tradeInValue : ℚ
  amountOwedOnTradeIn : ℚ
  cashIncentives : ℚ
  salesTax : ℚ
  titleAndRegistrationFees : ℚ
  includeFeesInLoan : Bool
  interestRate : ℚ
  loanTerm : ℤ
  deriving DecidableEq

/-- The `loanAmount` computed value: base amount plus sales tax, with
title and registration fees folded in exactly when `includeFeesInLoan`. -/
def loanAmount (s : LoanInputs) : ℚ :=
  let baseAmount :=
    s.autoPrice - s.downPayment - s.tradeInValue + s.amountOwedOnTradeIn - s.cashIncentives
  let taxAmount := (s.autoPrice - s.cashIncentives) * (s.salesTax / 100)
  if s.includeFeesInLoan then baseAmount + taxAmount + s.titleAndRegistrationFees
  else baseAmount + taxAmount

/-- `calculateMonthlyPayment`: straight-line division at monthly rate zero,
otherwise the closed-form amortization formula
`P * r * (1 + r)^n / ((1 + r)^n - 1)`. -/
def calculateMonthlyPayment (principal interestRate : ℚ) (loanTerm : ℤ) : ℚ :=
  let monthlyRate := interestRate / 100 / 12
  if monthlyRate = 0 then principal / (loanTerm : ℚ)
  else
    principal * monthlyRate * (1 + monthlyRate) ^ loanTerm /
      ((1 + monthlyRate) ^ loanTerm - 1)

/-- One row of the amortization schedule, exactly the object pushed per
month by `generateAmortizationSchedule`. -/
structure AmortizationRow where
  month : ℤ
  payment : ℚ
  principalPayment : ℚ
  interestPayment : ℚ
  remainingBalance : ℚ
  deriving DecidableEq

/-- One iteration of the schedule loop body: the row emitted for the given
month from the given running balance. -/
def rowFor (monthlyRate monthlyPayment : ℚ) (month : ℤ) (balance : ℚ) : AmortizationRow :=
  let interestPayment := balance * monthlyRate
  let principalPayment := monthlyPayment - interestPayment
  let balance2 := balance - principalPayment
  { month := month
    payment := monthlyPayment
    principalPayment := principalPayment
    interestPayment := interestPayment
    remainingBalance := if balance2 > 0 then balance2 else 0 }

/-- The new running balance after one loop iteration (pre-floor; this is
the value carried into the next month). -/
def nextBalance (monthlyRate monthlyPayment balance : ℚ) : ℚ :=
  balance - (monthlyPayment - balance * monthlyRate)

/-- The schedule loop: `n` remaining iterations, `month` the current
month counter, `balance` the running balance. -/
def scheduleAux (monthlyRate monthlyPayment : ℚ) :
    ℤ → ℕ → ℚ → List AmortizationRow
  | _, 0, _ => []
  | month, n + 1, balance =>
    rowFor monthlyRate monthlyPayment month balance ::
      scheduleAux monthlyRate monthlyPayment (month + 1) n
        (nextBalance monthlyRate monthlyPayment balance)

/-- `generateAmortizationSchedule`: computes the constant payment once,
then iterates month `1` through `loanTerm` (the loop body runs
`max loanTerm 0` times). -/
def generateAmortizationSchedule (principle interestRate : ℚ) (loanTerm : ℤ) :
    List AmortizationRow :=
  let monthlyRate := interestRate / 100 / 12
  let monthlyPayment := calculateMonthlyPayment principle interestRate loanTerm
  scheduleAux monthlyRate monthlyPayment 1 loanTerm.toNat principle

/-- `calculateTotalInterest`: total paid over the term minus the principal. -/
def calculateTotalInterest (principal monthlyPayment : ℚ) (loanTerm : ℤ) : ℚ :=
  monthlyPayment * (loanTerm : ℚ) - principal

/-- The `monthlyPayment` computed value of the component. -/
def monthlyPayment (s : LoanInputs) : ℚ :=
  calculateMonthlyPayment (loanAmount s) s.interestRate s.loanTerm

/-- The `totalInterest` computed value of the component. -/
def totalInterest (s : LoanInputs) : ℚ :=
  calculateTotalInterest (loanAmount s) (monthlyPayment s) s.loanTerm

/-- The `totalLoanCost` computed value: fees are added separately exactly
when they were not already folded into the loan amount. -/
def totalLoanCost (s : LoanInputs) : ℚ :=
  loanAmount s + totalInterest s +
    (if s.includeFeesInLoan then 0 else s.titleAndRegistrationFees)

/-- The running balance before month `k + 1`'s interest computation
(`balanceAfter r p P k` is the balance after `k` loop iterations starting
from `P`). -/
def balanceAfter (monthlyRate monthlyPayment principal : ℚ) : ℕ → ℚ
  | 0 => principal
  | n + 1 => nextBalance monthlyRate monthlyPayment
      (balanceAfter monthlyRate monthlyPayment principal n)

/-! ## Structural lemmas about the schedule loop -/

lemma scheduleAux_length (r p : ℚ) (m : ℤ) (n : ℕ) (b : ℚ) :
    (scheduleAux r p m n b).length = n := by
  induction n generalizing m b with
  | zero => rfl
  | succ n ih => simp [scheduleAux, ih]

lemma balanceAfter_shift (r p b : ℚ) (n : ℕ) :
    balanceAfter r p (nextBalance r p b) n = balanceAfter r p b (n + 1) := by
  induction n with
  | zero => rfl
  | succ n ih => rw [balanceAfter, ih]; rfl

lemma scheduleAux_get (r p : ℚ) (n : ℕ) (m : ℤ) (b : ℚ) (i : ℕ) (hi : i < n) :
    (scheduleAux r p m n b).get ⟨i, by rw [scheduleAux_length]; exact hi⟩ =
      rowFor r p (m + i) (balanceAfter r p b i) := by
  induction n generalizing m b i with
  | zero => exact absurd hi (Nat.not_lt_zero i)
  | succ n ih =>
    cases i with
    | zero => simp [scheduleAux, balanceAfter]
    | succ i =>
      have hi2 : i < n := Nat.lt_of_succ_lt_succ hi
      have := ih (m + 1) (nextBalance r p b) i hi2
      simp only [scheduleAux, List.get_cons_succ] at *
      rw [this, balanceAfter_shift]
      congr 1
      push_cast
      ring

lemma clamp_eq_max (x : ℚ) : (if x > 0 then x else 0) = max x 0 := by
  rcases le_or_lt x 0 with h | h
  · simp [not_lt.mpr h, max_eq_right h]
  · simp [h, max_eq_left h.le]

/-! ## Closed forms for the running balance -/

lemma balanceAfter_zero_rate (p P : ℚ) (k : ℕ) :
    balanceAfter 0 p P k = P - k * p := by
  induction k with
  | zero => simp [balanceAfter]
  | succ k ih => rw [balanceAfter, ih, nextBalance]; push_cast; ring

lemma balanceAfter_formula (r p P : ℚ) (hr : r ≠ 0) (k : ℕ) :
    balanceAfter r p P k = P * (1 + r) ^ k - p * ((1 + r) ^ k - 1) / r := by
  induction k with
  | zero => simp [balanceAfter]
  | succ k ih =>
    rw [balanceAfter, ih, nextBalance]
    field_simp
    ring

lemma balanceAfter_pay_factor (P R : ℚ) (N : ℤ) (hR : 0 ≤ R) (hN : 0 < N) :
    ∃ c : ℕ → ℚ,
      (∀ k j : ℕ, k ≤ j → j ≤ N.toNat → 0 ≤ c j ∧ c j ≤ c k) ∧
      c N.toNat = 0 ∧
      ∀ k : ℕ, balanceAfter (R / 100 / 12) (calculateMonthlyPayment P R N) P k = P * c k := by
  set r : ℚ := R / 100 / 12 with hr
  have hNn : (N.toNat : ℤ) = N := Int.toNat_of_nonneg hN.le
  have hn : N.toNat ≠ 0 := by omega
  have hnq : (0 : ℚ) < (N.toNat : ℚ) := by
    exact_mod_cast Nat.pos_of_ne_zero hn
  rcases eq_or_ne r 0 with hr0 | hr0
  · -- zero monthly rate: straight-line payment `P / N`
    have hpay : calculateMonthlyPayment P R N = P / (N : ℚ) := by
      rw [calculateMonthlyPayment]
      simp [← hr, hr0]
    have hNq : ((N.toNat : ℚ)) = (N : ℚ) := by exact_mod_cast congrArg Int.cast hNn
    refine ⟨fun k => ((N.toNat : ℚ) - k) / (N.toNat : ℚ), ?_, ?_, ?_⟩
    · intro k j hkj hjn
      have hkj2 : (k : ℚ) ≤ (j : ℚ) := by exact_mod_cast hkj
      have hjn2 : (j : ℚ) ≤ (N.toNat : ℚ) := by exact_mod_cast hjn
      constructor
      · apply div_nonneg (by linarith) hnq.le
      · exact (div_le_div_iff_of_pos_right hnq).mpr (by linarith)
    · simp
    · intro k
      rw [hr0, hpay, balanceAfter_zero_rate]
      rw [← hNq]
      field_simp
      ring
  · -- nonzero monthly rate: amortization formula payment
    have hrpos : 0 < r := by
      rcases lt_or_eq_of_le (by positivity : (0:ℚ) ≤ r) with h | h
      · exact h
      · exact absurd h.symm hr0
    have h1r : (1 : ℚ) ≤ 1 + r := by linarith
    have hD : (0 : ℚ) < (1 + r) ^ N.toNat - 1 := by
      have := one_lt_pow₀ (by linarith : (1:ℚ) < 1 + r) hn
      linarith
    have hz : (1 + r) ^ (N : ℤ) = (1 + r) ^ N.toNat := by
      conv_lhs => rw [← hNn]
      exact zpow_natCast _ _
    have hpay : calculateMonthlyPayment P R N =
        P * r * (1 + r) ^ N.toNat / ((1 + r) ^ N.toNat - 1) := by
      rw [calculateMonthlyPayment]
      simp only [← hr, if_neg hr0]
      rw [hz]
    refine ⟨fun k => ((1 + r) ^ N.toNat - (1 + r) ^ k) / ((1 + r) ^ N.toNat - 1),
      ?_, ?_, ?_⟩
    · intro k j hkj hjn
      have hj : (1 + r) ^ j ≤ (1 + r) ^ N.toNat := pow_le_pow_right₀ h1r hjn
      have hk : (1 + r) ^ k ≤ (1 + r) ^ j := pow_le_pow_right₀ h1r hkj
      constructor
      · apply div_nonneg (by linarith) hD.le
      · exact (div_le_div_iff_of_pos_right hD).mpr (by linarith)
    · simp
    · intro k
      rw [hpay, balanceAfter_formula r _ P hr0 k]
      field_simp
      ring

lemma balanceAfter_payoff (P R : ℚ) (N : ℤ) (hR : 0 ≤ R) (hN : 0 < N) :
    balanceAfter (R / 100 / 12) (calculateMonthlyPayment P R N) P N.toNat = 0 := by
  obtain ⟨c, _, hc0, hbal⟩ := balanceAfter_pay_factor P R N hR hN
  rw [hbal, hc0, mul_zero]

lemma scheduleAux_interest_sum (r p : ℚ) (n : ℕ) (m : ℤ) (b : ℚ) :
    ((scheduleAux r p m n b).map AmortizationRow.interestPayment).sum =
      n * p - b + balanceAfter r p b n := by
  induction n generalizing m b with
  | zero => simp [scheduleAux, balanceAfter]
  | succ n ih =>
    rw [scheduleAux, List.map_cons, List.sum_cons, ih, balanceAfter_shift]
    simp only [rowFor, nextBalance]
    push_cast
    ring

lemma generateAmortizationSchedule_length (P R : ℚ) (N : ℤ) :
    (generateAmortizationSchedule P R N).length = N.toNat :=
  scheduleAux_length _ _ _ _ _

lemma generateAmortizationSchedule_get (P R : ℚ) (N : ℤ) (i : ℕ)
    (hi : i < (generateAmortizationSchedule P R N).length) :
    (generateAmortizationSchedule P R N).get ⟨i, hi⟩ =
      rowFor (R / 100 / 12) (calculateMonthlyPayment P R N) (1 + (i : ℤ))
        (balanceAfter (R / 100 / 12) (calculateMonthlyPayment P R N) P i) :=
  scheduleAux_get (R / 100 / 12) (calculateMonthlyPayment P R N) N.toNat 1 P i
    (by rw [generateAmortizationSchedule_length] at hi; exact hi)

/-! ## Claims -/

/-- C1: for positive term, `calculateMonthlyPayment` returns
`principal / termMonths` exactly when the monthly rate `(R/100)/12` is
zero, and otherwise the amortization formula
`P * r * (1 + r)^N / ((1 + r)^N - 1)`. -/
theorem claim_C1_monthly_payment_formula (P R : ℚ) (N : ℤ) (hN : 0 < N) :
    (R / 100 / 12 = 0 → calculateMonthlyPayment P R N = P / (N : ℚ)) ∧
    (R / 100 / 12 ≠ 0 →
      calculateMonthlyPayment P R N =
        P * (R / 100 / 12) * (1 + R / 100 / 12) ^ N /
          ((1 + R / 100 / 12) ^ N - 1)) := by
  constructor <;> intro h <;> simp [calculateMonthlyPayment, h]

/-- C1 witness at `P = 1200`, `R = 0`, `N = 12`. -/
theorem claim_C1_monthly_payment_formula_witness :
    (0 : ℤ) < 12 ∧
    (((0 : ℚ) / 100 / 12 = 0 →
        calculateMonthlyPayment 1200 0 12 = 1200 / ((12 : ℤ) : ℚ)) ∧
      ((0 : ℚ) / 100 / 12 ≠ 0 →
        calculateMonthlyPayment 1200 0 12 =
          1200 * ((0 : ℚ) / 100 / 12) * (1 + (0 : ℚ) / 100 / 12) ^ (12 : ℤ) /
            ((1 + (0 : ℚ) / 100 / 12) ^ (12 : ℤ) - 1))) :=
  ⟨by decide, claim_C1_monthly_payment_formula 1200 0 12 (by decide)⟩

/-- C2: the source has no `InvalidTerm` guard.  At term `0` — with either a
nonzero or a zero rate — the denominator of the division is zero, so the
source divides by zero (`Infinity`/`NaN` in JavaScript; `0` under the
rational division-by-zero convention) instead of failing. -/
theorem claim_C2_zero_term_no_guard :
    calculateMonthlyPayment 1000 5 0 = 0 ∧ calculateMonthlyPayment 1000 0 0 = 0 := by
  constructor <;> norm_num [calculateMonthlyPayment]

/-- C3: the financed amount is
`base + tax (+ fees when included)` with
`base = price - down - tradeIn + owedOnTradeIn - incentives` and
`tax = (price - incentives) * (salesTax / 100)`; no floor is applied, so a
configuration whose credits exceed the price passes through negative. -/
theorem claim_C3_loan_amount_formula :
    (∀ s : LoanInputs,
      loanAmount s =
        (if s.includeFeesInLoan then
          (s.autoPrice - s.downPayment - s.tradeInValue + s.amountOwedOnTradeIn -
              s.cashIncentives) +
            (s.autoPrice - s.cashIncentives) * (s.salesTax / 100) +
            s.titleAndRegistrationFees
        else
          (s.autoPrice - s.downPayment - s.tradeInValue + s.amountOwedOnTradeIn -
              s.cashIncentives) +
            (s.autoPrice - s.cashIncentives) * (s.salesTax / 100))) ∧
    loanAmount ⟨10000, 20000, 0, 0, 0, 0, 0, false, 5, 60⟩ = -10000 := by
  constructor
  · intro s
    rfl
  · norm_num [loanAmount]

/-- C7: folding the fees into the principal raises the financed amount by
exactly `titleAndRegistrationFees`. -/
theorem claim_C7_fees_difference (s : LoanInputs) :
    loanAmount { s with includeFeesInLoan := true } =
      loanAmount { s with includeFeesInLoan := false } + s.titleAndRegistrationFees := by
  simp [loanAmount]

/-- C8: the total loan cost adds the fees exactly once: separately when
they are not in the principal, already inside `loanAmount` otherwise. -/
theorem claim_C8_total_cost (s : LoanInputs) :
    (totalLoanCost s =
      (if s.includeFeesInLoan then loanAmount s + totalInterest s
        else loanAmount s + totalInterest s + s.titleAndRegistrationFees)) ∧
    totalLoanCost s =
      (s.autoPrice - s.downPayment - s.tradeInValue + s.amountOwedOnTradeIn -
          s.cashIncentives) +
        (s.autoPrice - s.cashIncentives) * (s.salesTax / 100) +
        s.titleAndRegistrationFees + totalInterest s := by
  cases h : s.includeFeesInLoan <;>
    constructor <;> simp [totalLoanCost, loanAmount, h] <;> ring

/-- C4: for positive term the schedule has exactly `termMonths` rows and
row `i` (0-based) carries month `i + 1`. -/
theorem claim_C4_schedule_length_months (P R : ℚ) (N : ℤ) (hN : 0 < N) :
    ((generateAmortizationSchedule P R N).length : ℤ) = N ∧
    ∀ (i : ℕ) (hi : i < (generateAmortizationSchedule P R N).length),
      ((generateAmortizationSchedule P R N).get ⟨i, hi⟩).month = (i : ℤ) + 1 := by
  constructor
  · rw [generateAmortizationSchedule_length]
    exact_mod_cast Int.toNat_of_nonneg hN.le
  · intro i hi
    rw [generateAmortizationSchedule_get P R N i hi]
    show 1 + (i : ℤ) = (i : ℤ) + 1
    ring

/-- C4 witness at `P = 1000`, `R = 12`, `N = 2`. -/
theorem claim_C4_schedule_length_months_witness :
    (0 : ℤ) < 2 ∧
    (((generateAmortizationSchedule 1000 12 2).length : ℤ) = 2 ∧
      ∀ (i : ℕ) (hi : i < (generateAmortizationSchedule 1000 12 2).length),
        ((generateAmortizationSchedule 1000 12 2).get ⟨i, hi⟩).month = (i : ℤ) + 1) :=
  ⟨by decide, claim_C4_schedule_length_months 1000 12 2 (by decide)⟩

/-- C5: each row is built from the running balance `balanceAfter`:
interest is `balance * monthlyRate`, principal is the payment minus
interest, the emitted balance is the new balance clamped at zero, while
the un-floored balance (`balanceAfter (i+1)`) is what the next month's
interest is computed from. -/
theorem claim_C5_schedule_recurrence (P R : ℚ) (N : ℤ) (hN : 0 < N) :
    balanceAfter (R / 100 / 12) (calculateMonthlyPayment P R N) P 0 = P ∧
    (∀ k : ℕ,
      balanceAfter (R / 100 / 12) (calculateMonthlyPayment P R N) P (k + 1) =
        balanceAfter (R / 100 / 12) (calculateMonthlyPayment P R N) P k -
          (calculateMonthlyPayment P R N -
            balanceAfter (R / 100 / 12) (calculateMonthlyPayment P R N) P k *
              (R / 100 / 12))) ∧
    ∀ (i : ℕ) (hi : i < (generateAmortizationSchedule P R N).length),
      (generateAmortizationSchedule P R N).get ⟨i, hi⟩ =
        { month := (i : ℤ) + 1
          payment := calculateMonthlyPayment P R N
          principalPayment :=
            calculateMonthlyPayment P R N -
              balanceAfter (R / 100 / 12) (calculateMonthlyPayment P R N) P i *
                (R / 100 / 12)
          interestPayment :=
            balanceAfter (R / 100 / 12) (calculateMonthlyPayment P R N) P i *
              (R / 100 / 12)
          remainingBalance :=
            max (balanceAfter (R / 100 / 12) (calculateMonthlyPayment P R N) P (i + 1))
              0 } := by
  refine ⟨rfl, fun k => rfl, ?_⟩
  intro i hi
  rw [generateAmortizationSchedule_get P R N i hi]
  rw [show ((i : ℤ) + 1) = 1 + (i : ℤ) from by ring]
  simp only [rowFor]
  rw [clamp_eq_max]
  rfl

/-- C5 witness at `P = 1000`, `R = 12`, `N = 2`. -/
theorem claim_C5_schedule_recurrence_witness :
    (0 : ℤ) < 2 ∧
    (balanceAfter ((12 : ℚ) / 100 / 12) (calculateMonthlyPayment 1000 12 2) 1000 0 = 1000 ∧
    (∀ k : ℕ,
      balanceAfter ((12 : ℚ) / 100 / 12) (calculateMonthlyPayment 1000 12 2) 1000 (k + 1) =
        balanceAfter ((12 : ℚ) / 100 / 12) (calculateMonthlyPayment 1000 12 2) 1000 k -
          (calculateMonthlyPayment 1000 12 2 -
            balanceAfter ((12 : ℚ) / 100 / 12) (calculateMonthlyPayment 1000 12 2) 1000 k *
              ((12 : ℚ) / 100 / 12))) ∧
    ∀ (i : ℕ) (hi : i < (generateAmortizationSchedule 1000 12 2).length),
      (generateAmortizationSchedule 1000 12 2).get ⟨i, hi⟩ =
        { month := (i : ℤ) + 1
          payment := calculateMonthlyPayment 1000 12 2
          principalPayment :=
            calculateMonthlyPayment 1000 12 2 -
              balanceAfter ((12 : ℚ) / 100 / 12) (calculateMonthlyPayment 1000 12 2) 1000 i *
                ((12 : ℚ) / 100 / 12)
          interestPayment :=
            balanceAfter ((12 : ℚ) / 100 / 12) (calculateMonthlyPayment 1000 12 2) 1000 i *
              ((12 : ℚ) / 100 / 12)
          remainingBalance :=
            max (balanceAfter ((12 : ℚ) / 100 / 12) (calculateMonthlyPayment 1000 12 2) 1000
                (i + 1))
              0 }) :=
  ⟨by decide, claim_C5_schedule_recurrence 1000 12 2 (by decide)⟩

/-- C6: `calculateTotalInterest` is `payment * termMonths - principal`,
and for the payment computed from the same principal, (non-negative) rate
and positive term it equals the sum of the schedule's interest portions —
exactly, in exact arithmetic. -/
theorem claim_C6_total_interest (P R : ℚ) (N : ℤ) (hR : 0 ≤ R) (hN : 0 < N) :
    (∀ payment : ℚ, calculateTotalInterest P payment N = payment * (N : ℚ) - P) ∧
    ((generateAmortizationSchedule P R N).map AmortizationRow.interestPayment).sum =
      calculateTotalInterest P (calculateMonthlyPayment P R N) N := by
  refine ⟨fun payment => rfl, ?_⟩
  have h1 :
      ((generateAmortizationSchedule P R N).map AmortizationRow.interestPayment).sum =
        (N.toNat : ℚ) * calculateMonthlyPayment P R N - P +
          balanceAfter (R / 100 / 12) (calculateMonthlyPayment P R N) P N.toNat :=
    scheduleAux_interest_sum _ _ _ _ _
  have h2 : ((N.toNat : ℚ)) = (N : ℚ) := by
    exact_mod_cast congrArg Int.cast (Int.toNat_of_nonneg hN.le)
  rw [h1, balanceAfter_payoff P R N hR hN, add_zero, calculateTotalInterest, h2]
  ring

/-- C6 witness at `P = 1000`, `R = 12`, `N = 2`. -/
theorem claim_C6_total_interest_witness :
    (0 : ℚ) ≤ 12 ∧ (0 : ℤ) < 2 ∧
    ((∀ payment : ℚ, calculateTotalInterest 1000 payment 2 = payment * ((2 : ℤ) : ℚ) - 1000) ∧
      ((generateAmortizationSchedule 1000 12 2).map AmortizationRow.interestPayment).sum =
        calculateTotalInterest 1000 (calculateMonthlyPayment 1000 12 2) 2) :=
  ⟨by norm_num, by decide, claim_C6_total_interest 1000 12 2 (by norm_num) (by decide)⟩

lemma rowFor_remainingBalance (r p : ℚ) (m : ℤ) (b : ℚ) :
    (rowFor r p m b).remainingBalance = max (nextBalance r p b) 0 :=
  clamp_eq_max (nextBalance r p b)

/-- C9: with a non-negative rate and positive term, the emitted
`remainingBalance` values are monotonically non-increasing along the
schedule, and the final row's `remainingBalance` is exactly zero (the
payment formula is exact in exact arithmetic). -/
theorem claim_C9_remaining_balance (P R : ℚ) (N : ℤ) (hR : 0 ≤ R) (hN : 0 < N) :
    (∀ (i j : ℕ) (hij : i ≤ j) (hj : j < (generateAmortizationSchedule P R N).length),
      ((generateAmortizationSchedule P R N).get ⟨j, hj⟩).remainingBalance ≤
        ((generateAmortizationSchedule P R N).get
            ⟨i, lt_of_le_of_lt hij hj⟩).remainingBalance) ∧
    ∀ (i : ℕ) (hi : i < (generateAmortizationSchedule P R N).length),
      i + 1 = (generateAmortizationSchedule P R N).length →
      ((generateAmortizationSchedule P R N).get ⟨i, hi⟩).remainingBalance = 0 := by
  obtain ⟨c, hmono, hc0, hbal⟩ := balanceAfter_pay_factor P R N hR hN
  have hrem : ∀ (i : ℕ) (hi : i < (generateAmortizationSchedule P R N).length),
      ((generateAmortizationSchedule P R N).get ⟨i, hi⟩).remainingBalance =
        max P 0 * c (i + 1) := by
    intro i hi
    have hin : i + 1 ≤ N.toNat := by
      rw [generateAmortizationSchedule_length] at hi; omega
    rw [generateAmortizationSchedule_get P R N i hi, rowFor_remainingBalance]
    have hnx : nextBalance (R / 100 / 12) (calculateMonthlyPayment P R N)
        (balanceAfter (R / 100 / 12) (calculateMonthlyPayment P R N) P i) =
          balanceAfter (R / 100 / 12) (calculateMonthlyPayment P R N) P (i + 1) := rfl
    rw [hnx, hbal (i + 1), max_mul_of_nonneg P 0 (hmono (i + 1) (i + 1) le_rfl hin).1,
      zero_mul]
  constructor
  · intro i j hij hj
    have hi := lt_of_le_of_lt hij hj
    rw [hrem j hj, hrem i hi]
    have hjn : j + 1 ≤ N.toNat := by
      rw [generateAmortizationSchedule_length] at hj; omega
    exact mul_le_mul_of_nonneg_left (hmono (i + 1) (j + 1) (by omega) hjn).2
      (le_max_right P 0)
  · intro i hi hlast
    rw [hrem i hi]
    have h2 : i + 1 = N.toNat := by
      rw [generateAmortizationSchedule_length] at hlast; omega
    rw [h2, hc0, mul_zero]

/-- C9 witness at `P = 1000`, `R = 12`, `N = 2`. -/
theorem claim_C9_remaining_balance_witness :
    (0 : ℚ) ≤ 12 ∧ (0 : ℤ) < 2 ∧
    ((∀ (i j : ℕ) (hij : i ≤ j) (hj : j < (generateAmortizationSchedule 1000 12 2).length),
      ((generateAmortizationSchedule 1000 12 2).get ⟨j, hj⟩).remainingBalance ≤
        ((generateAmortizationSchedule 1000 12 2).get
            ⟨i, lt_of_le_of_lt hij hj⟩).remainingBalance) ∧
    ∀ (i : ℕ) (hi : i < (generateAmortizationSchedule 1000 12 2).length),
      i + 1 = (generateAmortizationSchedule 1000 12 2).length →
      ((generateAmortizationSchedule 1000 12 2).get ⟨i, hi⟩).remainingBalance = 0) :=
  ⟨by norm_num, by decide, claim_C9_remaining_balance 1000 12 2 (by norm_num) (by decide)⟩

/-- C10: a zero or negative term makes the month loop body never run, so
the schedule is empty and no error is raised. -/
theorem claim_C10_nonpositive_term (P R : ℚ) (N : ℤ) (hN : N ≤ 0) :
    generateAmortizationSchedule P R N = [] := by
  have h0 : N.toNat = 0 := by omega
  show scheduleAux _ _ 1 N.toNat P = []
  rw [h0]
  rfl

/-- C10 witness at `P = 1000`, `R = 5`, `N = -3`. -/
theorem claim_C10_nonpositive_term_witness :
    (-3 : ℤ) ≤ 0 ∧ generateAmortizationSchedule 1000 5 (-3) = [] :=
  ⟨by decide, claim_C10_nonpositive_term 1000 5 (-3) (by decide)⟩
